import Mathlib

/-!
# Verification of the mimir embedded-milli adaptation layer (v1)

Shallow embedding of `packages/mimir/native/src/embedded_milli/v1.rs`:
the storage-environment probing loop of `create_index`, the document
batch pipeline (`set_documents`), the document reader (`get_document`),
the settings manager (`get_settings` / `set_settings`), the filter
expression compiler (`impl From<&Filter> for milli::FilterCondition`),
the fancy-search query builder, and the dump/restore operations.

Types that live outside the embedded source file (the `Filter`,
`MimirIndexSettings` and `Query` api types, the `super` module constants,
and the milli engine boundary) are modelled from the specification, as
noted on each definition.

The file is organized as definitions first, theorems second.
-/

namespace Mimir

/-! ## The application-level JSON data model

Modelled from the spec: a `Document` is an ordered mapping from field
name to an arbitrary structured value (string/number/bool/null/array/
nested object); the `Document` type alias lives in `embedded_milli/mod.rs`
which is not part of the embedded source. -/

inductive JsonValue where
  | str (s : String)
  | num (n : Int)
  | bool (b : Bool)
  | null
  | arr (xs : List JsonValue)
  | obj (fields : List (String × JsonValue))

/-- A document: an ordered mapping from field name to structured value. -/
def Document := List (String × JsonValue)

/-! ## Storage environment negotiation (`create_index`)

The constants `MAX_POSSIBLE_SIZE`, `MAP_EXP_BACKOFF_AMOUNT`,
`MAP_SIZE_TRIES` and `MAX_OS_PAGE_SIZE` live in `embedded_milli/mod.rs`,
which is not part of the embedded source; they appear here as parameters
`maxSize`, `fNum / fDen` (the backoff factor as an exact fraction,
idealizing the source's `f32` arithmetic), `tries` and `page`, modelled
from the spec: the backoff factor is a fixed value below one, the retry
bound and page size are fixed positive constants. -/

/-- `(MAX_POSSIBLE_SIZE as f32 * MAP_EXP_BACKOFF_AMOUNT.powi(retry)) as usize`
from v1.rs line 44, with the `f32` product idealized to the exact value
`⌊maxSize · (fNum/fDen)^retry⌋` (the `as usize` cast truncates toward zero). -/
def curr_max_map_size (maxSize fNum fDen : ℕ) (retry : ℕ) : ℕ :=
  maxSize * fNum ^ retry / fDen ^ retry

/-- `curr_max_map_size - (curr_max_map_size % MAX_OS_PAGE_SIZE)` from
v1.rs line 46: the size requested on a given attempt. -/
def map_size (maxSize fNum fDen page : ℕ) (retry : ℕ) : ℕ :=
  curr_max_map_size maxSize fNum fDen retry -
    curr_max_map_size maxSize fNum fDen retry % page

/-- The probing loop of `create_index` (v1.rs lines 42-61), with the
environment open modelled as an oracle from the attempt number to an
`Except` outcome: on `Ok` the loop breaks with the winning attempt, on
`Err` it retries while `retry < tries` and otherwise surfaces that error. -/
def probe_map_size {ε : Type} (openResult : ℕ → Except ε Unit) (tries : ℕ)
    (retry : ℕ) : Except ε ℕ :=
  match openResult retry with
  | Except.ok _ => Except.ok retry
  | Except.error e =>
      if h : retry < tries then probe_map_size openResult tries (retry + 1)
      else Except.error e
termination_by tries + 1 - retry
decreasing_by omega

/-! ## Filter expression trees

`Filter` is defined in `crate::api` (not part of the embedded source);
modelled from the spec: a recursive boolean expression tree with
`Or`/`And` over lists of sub-filters, `Not` over one sub-filter, and
leaf predicates over a field carrying literal string-encoded values. -/

inductive Filter where
  | Or (filters : List Filter)
  | And (filters : List Filter)
  | Not (filter : Filter)
  | InValues (field : String) (values : List String)
  | GreaterThan (field value : String)
  | GreaterThanOrEqual (field value : String)
  | Equal (field value : String)
  | NotEqual (field value : String)
  | LessThan (field value : String)
  | LessThanOrEqual (field value : String)
  | Between (field fromBound toBound : String)
  | Exists (field : String)
  | IsNull (field : String)
  | IsEmpty (field : String)

/-- The milli engine's leaf condition operator (`milli::Condition`),
modelled at the interface boundary with exactly the constructors the
compiler in v1.rs produces. -/
inductive Condition where
  | GreaterThan (v : String)
  | GreaterThanOrEqual (v : String)
  | Equal (v : String)
  | NotEqual (v : String)
  | LowerThan (v : String)
  | LowerThanOrEqual (v : String)
  | Between (fromBound toBound : String)
  | Exists
  | Null
  | Empty

/-- The milli engine's condition tree (`milli::FilterCondition`),
modelled at the interface boundary with the constructors the compiler
in v1.rs produces. -/
inductive FilterCondition where
  | Not (c : FilterCondition)
  | Condition (fid : String) (op : Condition)
  | In (fid : String) (els : List String)
  | Or (cs : List FilterCondition)
  | And (cs : List FilterCondition)

/-- `create_condition` from v1.rs: wraps a field id and a leaf operator
into a field-scoped condition node. -/
def create_condition (s : String) (cond : Condition) : FilterCondition :=
  FilterCondition.Condition s cond

mutual

/-- The filter expression compiler: `impl From<&Filter> for
milli::FilterCondition` in v1.rs, with one match arm per `Filter`
variant and no fallback branch. -/
def filterToCondition : Filter → FilterCondition
  | Filter.Or fs => FilterCondition.Or (filtersToConditions fs)
  | Filter.And fs => FilterCondition.And (filtersToConditions fs)
  | Filter.Not f => FilterCondition.Not (filterToCondition f)
  | Filter.InValues field values => FilterCondition.In field values
  | Filter.GreaterThan f v => create_condition f (Condition.GreaterThan v)
  | Filter.GreaterThanOrEqual f v => create_condition f (Condition.GreaterThanOrEqual v)
  | Filter.Equal f v => create_condition f (Condition.Equal v)
  | Filter.NotEqual f v => create_condition f (Condition.NotEqual v)
  | Filter.LessThan f v => create_condition f (Condition.LowerThan v)
  | Filter.LessThanOrEqual f v => create_condition f (Condition.LowerThanOrEqual v)
  | Filter.Between f lo hi => create_condition f (Condition.Between lo hi)
  | Filter.Exists f => create_condition f Condition.Exists
  | Filter.IsNull f => create_condition f Condition.Null
  | Filter.IsEmpty f => create_condition f Condition.Empty

/-- `filters.iter().map(Self::from).collect()` on a list of sub-filters. -/
def filtersToConditions : List Filter → List FilterCondition
  | [] => []
  | f :: fs => filterToCondition f :: filtersToConditions fs

end

mutual

/-- Structural read-back of a compiled condition tree into the `Filter`
grammar; total over the condition constructors the compiler produces. -/
def conditionToFilter : FilterCondition → Filter
  | FilterCondition.Or cs => Filter.Or (conditionsToFilters cs)
  | FilterCondition.And cs => Filter.And (conditionsToFilters cs)
  | FilterCondition.Not c => Filter.Not (conditionToFilter c)
  | FilterCondition.In fid els => Filter.InValues fid els
  | FilterCondition.Condition fid (Condition.GreaterThan v) => Filter.GreaterThan fid v
  | FilterCondition.Condition fid (Condition.GreaterThanOrEqual v) => Filter.GreaterThanOrEqual fid v
  | FilterCondition.Condition fid (Condition.Equal v) => Filter.Equal fid v
  | FilterCondition.Condition fid (Condition.NotEqual v) => Filter.NotEqual fid v
  | FilterCondition.Condition fid (Condition.LowerThan v) => Filter.LessThan fid v
  | FilterCondition.Condition fid (Condition.LowerThanOrEqual v) => Filter.LessThanOrEqual fid v
  | FilterCondition.Condition fid (Condition.Between lo hi) => Filter.Between fid lo hi
  | FilterCondition.Condition fid Condition.Exists => Filter.Exists fid
  | FilterCondition.Condition fid Condition.Null => Filter.IsNull fid
  | FilterCondition.Condition fid Condition.Empty => Filter.IsEmpty fid

/-- Element-wise read-back of a list of compiled condition trees. -/
def conditionsToFilters : List FilterCondition → List Filter
  | [] => []
  | c :: cs => conditionToFilter c :: conditionsToFilters cs

end

/-! ## Settings manager

`MimirIndexSettings` is defined in `crate::api` (not part of the
embedded source); modelled from the spec: primary key (optional),
searchable fields (ordered list or all-fields sentinel), filterable /
sortable fields (sets), ranking rule order (ordered list of strings),
stop words (set), synonyms (word to equivalents), typo-tolerance
toggle, the two minimum word lengths, and the two typo exemption sets. -/

structure MimirIndexSettings where
  primary_key : Option String
  searchable_fields : Option (List String)
  filterable_fields : Finset String
  sortable_fields : Finset String
  ranking_rules : List String
  stop_words : Finset String
  synonyms : List (String × List String)
  typos_enabled : Bool
  min_word_size_for_one_typo : ℕ
  min_word_size_for_two_typos : ℕ
  disallow_typos_on_words : Finset String
  disallow_typos_on_fields : Finset String
  deriving DecidableEq

/-- `milli::Criterion`, modelled at the interface boundary: the six
static ranking-rule criteria plus the per-field asc/desc criteria. -/
inductive Criterion where
  | words
  | typo
  | proximity
  | attribute
  | sort
  | exactness
  | asc (field : String)
  | desc (field : String)
  deriving DecidableEq

/-- `milli::Criterion::from_str`, modelled at the interface boundary:
the six canonical names parse to the static criteria, the engine's
`field:asc` / `field:desc` forms parse to the per-field criteria, and
any other string is an error (returned as `none`). -/
def criterion_from_str (s : String) : Option Criterion :=
  if s = "words" then some Criterion.words
  else if s = "typo" then some Criterion.typo
  else if s = "proximity" then some Criterion.proximity
  else if s = "attribute" then some Criterion.attribute
  else if s = "sort" then some Criterion.sort
  else if s = "exactness" then some Criterion.exactness
  else if [':', 'a', 's', 'c'].isSuffixOf s.data then
    some (Criterion.asc (String.mk (s.data.take (s.data.length - 4))))
  else if [':', 'd', 'e', 's', 'c'].isSuffixOf s.data then
    some (Criterion.desc (String.mk (s.data.take (s.data.length - 5))))
  else none

/-- The match arms of `get_settings` on `index.criteria` (v1.rs lines
310-319): each static criterion to its canonical name, `Asc`/`Desc` to
the empty string. -/
def criterion_rule_name : Criterion → String
  | Criterion.words => "words"
  | Criterion.typo => "typo"
  | Criterion.proximity => "proximity"
  | Criterion.attribute => "attribute"
  | Criterion.sort => "sort"
  | Criterion.exactness => "exactness"
  | Criterion.asc _ => ""
  | Criterion.desc _ => ""

/-- The committed settings-related state of a milli index, modelled at
the interface boundary: one slot per facet the source reads or writes. -/
structure EngineSettings where
  primaryKey : Option String
  searchableFields : Option (List String)
  filterableFields : Finset String
  sortableFields : Finset String
  criteria : List Criterion
  stopWords : Finset String
  synonyms : List (String × List String)
  authorizeTypos : Bool
  minWordLenOneTypo : ℕ
  minWordLenTwoTypos : ℕ
  exactWords : Finset String
  exactAttributes : Finset String
  deriving DecidableEq

/-- The settings-validation error of `set_settings`. -/
inductive SettingsError where
  | invalidRankingRuleName (name : String)
  deriving DecidableEq

/-- `ranking_rules.iter().map(Criterion::from_str).collect::<Result<_>>()`
from v1.rs lines 390-397: parse every supplied rule name, surfacing the
first failure. -/
def parse_criteria : List String → Except SettingsError (List Criterion)
  | [] => Except.ok []
  | r :: rs =>
      match criterion_from_str r with
      | none => Except.error (SettingsError.invalidRankingRuleName r)
      | some c =>
          match parse_criteria rs with
          | Except.ok cs => Except.ok (c :: cs)
          | Except.error e => Except.error e

/-- `get_settings` (v1.rs lines 298-355): reads every facet from the
committed state; the criteria list is mapped to rule names and the
empty names (the Asc/Desc criteria) are filtered out. -/
def get_settings (st : EngineSettings) : MimirIndexSettings :=
  { primary_key := st.primaryKey
    searchable_fields := st.searchableFields
    filterable_fields := st.filterableFields
    sortable_fields := st.sortableFields
    ranking_rules := (st.criteria.map criterion_rule_name).filter (fun s => s != "")
    stop_words := st.stopWords
    synonyms := st.synonyms
    typos_enabled := st.authorizeTypos
    min_word_size_for_one_typo := st.minWordLenOneTypo
    min_word_size_for_two_typos := st.minWordLenTwoTypos
    disallow_typos_on_words := st.exactWords
    disallow_typos_on_fields := st.exactAttributes }

/-- `set_settings` (v1.rs lines 357-409): every facet is applied inside
one write transaction — a present primary key or searchable-field list
is set, an absent one is reset to the engine default — and the ranking
rules are parsed before the update executes, so a parse failure is
surfaced before the commit. The second component counts the commits
performed (1 on success, 0 on error). -/
def set_settings (st : EngineSettings) (s : MimirIndexSettings) :
    Except SettingsError EngineSettings × ℕ :=
  match parse_criteria s.ranking_rules with
  | Except.error e => (Except.error e, 0)
  | Except.ok crits =>
      (Except.ok
        { primaryKey :=
            match s.primary_key with
            | some pkey => some pkey
            | none => none
          searchableFields :=
            match s.searchable_fields with
            | some fields => some fields
            | none => none
          filterableFields := s.filterable_fields
          sortableFields := s.sortable_fields
          criteria := crits
          stopWords := s.stop_words
          synonyms := s.synonyms
          authorizeTypos := s.typos_enabled
          minWordLenOneTypo := s.min_word_size_for_one_typo
          minWordLenTwoTypos := s.min_word_size_for_two_typos
          exactWords := s.disallow_typos_on_words
          exactAttributes := s.disallow_typos_on_fields }, 1)

/-- The six canonical static ranking-rule names. -/
def canonical_rule_names : List String :=
  ["words", "typo", "proximity", "attribute", "sort", "exactness"]

/-! ## The document batch pipeline (`set_documents`)

The engine and transaction boundary is modelled per the spec (§4.2): a
write transaction carries a pending view and has no effect until its
single commit publishes the pending view as the committed state; every
fallible engine step is an oracle that either succeeds or yields an
error string. -/

/-- Failure oracle for one `set_documents` call: which fallible step,
if any, fails (`none` everywhere is the happy path). -/
structure BatchOracle where
  beginErr : Option String
  clearErr : Option String
  appendErr : Document → Option String
  builderErr : Option String
  indexingErr : Option String
  executeErr : Option String
  commitErr : Option String

/-- The `builder.append_json_object(&doc)?` loop: appends one structured
record at a time, failing on the first record the builder rejects. -/
def append_documents : List Document → (Document → Option String) → Option String
  | [], _ => none
  | d :: ds, f =>
      match f d with
      | some e => some e
      | none => append_documents ds f

/-- Outcome of a document-mutation operation: the call's result, the
committed state when the call returns, the committed state a concurrent
reader observes after each internal step, and how many commits happened. -/
structure BatchOutcome where
  result : Except String Unit
  committed : List Document
  observed : List (List Document)
  commits : ℕ

/-- `set_documents` (v1.rs lines 120-154): open one write transaction,
clear all documents in its pending view, append and index the new batch
in the same pending view — checking both the batch step and the inner
indexing result — and commit exactly once at the end. The committed
state changes only at the commit step; every earlier step leaves it at
the prior state, which is also what the call returns on any error. -/
def set_documents (idx : List Document) (docs : List Document)
    (o : BatchOracle) : BatchOutcome :=
  match o.beginErr with
  | some e => { result := Except.error e, committed := idx, observed := [idx], commits := 0 }
  | none =>
    match o.clearErr with
    | some e => { result := Except.error e, committed := idx, observed := [idx, idx], commits := 0 }
    | none =>
      let pendingCleared : List Document := []
      match append_documents docs o.appendErr with
      | some e => { result := Except.error e, committed := idx, observed := [idx, idx, idx], commits := 0 }
      | none =>
        match o.builderErr with
        | some e => { result := Except.error e, committed := idx, observed := [idx, idx, idx, idx], commits := 0 }
        | none =>
          match o.indexingErr with
          | some e => { result := Except.error e, committed := idx, observed := [idx, idx, idx, idx, idx], commits := 0 }
          | none =>
            match o.executeErr with
            | some e => { result := Except.error e, committed := idx, observed := [idx, idx, idx, idx, idx, idx], commits := 0 }
            | none =>
              let pendingFinal := pendingCleared ++ docs
              match o.commitErr with
              | some e => { result := Except.error e, committed := idx, observed := [idx, idx, idx, idx, idx, idx, idx], commits := 0 }
              | none =>
                  { result := Except.ok (),
                    committed := pendingFinal,
                    observed := [idx, idx, idx, idx, idx, idx, pendingFinal],
                    commits := 1 }

/-! ## The document reader (`get_document`) -/

/-- The identifier state of an index at the storage boundary: the
external-to-internal identifier map and the internal document store. -/
structure DocStore where
  externalIds : String → Option ℕ
  docs : ℕ → Option Document

/-- `index.documents(&rtxn, ids)` at the storage boundary: the records
found for the requested internal identifiers. -/
def milli_documents (ds : DocStore) (ids : List ℕ) : List (ℕ × Document) :=
  ids.filterMap (fun i => (ds.docs i).map (fun d => (i, d)))

/-- `get_document` (v1.rs lines 156-171): resolve the external id via
the identifier map (absent means a successful not-found); fetch the
record for the internal id and take the first result, which missing is
the "Missing document" internal-invariant error; reconstruct the
document (the obkv-to-json reconstruction is the identity here). -/
def get_document (ds : DocStore) (document_id : String) :
    Except String (Option Document) :=
  match ds.externalIds document_id with
  | none => Except.ok none
  | some internal_id =>
      match (milli_documents ds [internal_id]).head? with
      | none => Except.error "Missing document"
      | some (_, doc) => Except.ok (some doc)

/-! ## Dump / restore -/

/-- The externally visible events of a dump/restore operation, in
execution order. -/
inductive DumpEvent where
  | readSettings
  | readDocuments
  | applySettings
  | applyDocuments
  | closeWait
  deriving DecidableEq

/-- `create_dump` (v1.rs lines 411-422): create the environment, run
the reads inside an immediately-invoked closure, then always
`prepare_for_closing().wait()` before returning the closure's result.
The oracles are the outcomes of `create_index`, `get_settings` and
`get_all_documents`; the event list records what executed, in order. -/
def create_dump (createRes : Except String Unit)
    (settingsRes : Except String MimirIndexSettings)
    (docsRes : Except String (List Document)) :
    Except String (MimirIndexSettings × List Document) × List DumpEvent :=
  match createRes with
  | Except.error e => (Except.error e, [])
  | Except.ok _ =>
      match settingsRes with
      | Except.error e =>
          (Except.error e, [DumpEvent.readSettings, DumpEvent.closeWait])
      | Except.ok settings =>
          match docsRes with
          | Except.error e =>
              (Except.error e,
                [DumpEvent.readSettings, DumpEvent.readDocuments,
                  DumpEvent.closeWait])
          | Except.ok documents =>
              (Except.ok (settings, documents),
                [DumpEvent.readSettings, DumpEvent.readDocuments,
                  DumpEvent.closeWait])

/-- `import_dump` (v1.rs lines 424-436): create the environment, apply
settings then documents inside an immediately-invoked closure, then
always `prepare_for_closing().wait()` before returning the closure's
result. -/
def import_dump (createRes : Except String Unit)
    (applySettingsRes : Except String Unit)
    (applyDocsRes : Except String Unit) :
    Except String Unit × List DumpEvent :=
  match createRes with
  | Except.error e => (Except.error e, [])
  | Except.ok _ =>
      match applySettingsRes with
      | Except.error e =>
          (Except.error e, [DumpEvent.applySettings, DumpEvent.closeWait])
      | Except.ok _ =>
          match applyDocsRes with
          | Except.error e =>
              (Except.error e,
                [DumpEvent.applySettings, DumpEvent.applyDocuments,
                  DumpEvent.closeWait])
          | Except.ok _ =>
              (Except.ok (),
                [DumpEvent.applySettings, DumpEvent.applyDocuments,
                  DumpEvent.closeWait])

/-! ## Fancy search -/

/-- `MatchingStrategy` from `crate::api` (not part of the embedded
source), modelled from the spec: drop trailing terms first, or require
all terms. -/
inductive MatchingStrategy where
  | last
  | all
  deriving DecidableEq

/-- The `Query` api type (not part of the embedded source), modelled
from the spec §3 with the fields `fancy_search` consumes. -/
structure Query where
  query : String
  offset : Option ℕ
  limit : Option ℕ
  attributes_to_retrieve : Option (List String)
  attributes_to_crop : Option (List String)
  crop_length : Option ℕ
  attributes_to_highlight : Option (List String)
  show_matches_position : Option Bool
  show_ranking_score : Option Bool
  show_ranking_score_details : Option Bool
  filter : Option String
  sort : Option (List String)
  facets : Option (List String)
  highlight_pre_tag : Option String
  highlight_post_tag : Option String
  crop_marker : Option String
  matching_strategy : Option MatchingStrategy
  attributes_to_search_on : Option (List String)

/-- `meilisearch::search::SearchQuery` at the ranked-search boundary,
with the fields v1.rs builds (lines 193-215). -/
structure SearchQuery where
  q : Option String
  offset : ℕ
  limit : ℕ
  attributes_to_retrieve : Option (Finset String)
  attributes_to_crop : Option (List String)
  crop_length : ℕ
  attributes_to_highlight : Option (Finset String)
  show_matches_position : Bool
  show_ranking_score : Bool
  show_ranking_score_details : Bool
  filter : Option JsonValue
  sort : Option (List String)
  facets : Option (List String)
  highlight_pre_tag : String
  highlight_post_tag : String
  crop_marker : String
  matching_strategy : MatchingStrategy
  attributes_to_search_on : Option (List String)

/-- The search-request construction of `fancy_search` (v1.rs lines
184-215): collect the retrieve/highlight lists into sets, parse the
filter string as JSON keeping only successes (`from_str(&s).ok()`), and
fill every absent field with its documented default. `parse` is the
JSON parser at the serde boundary. -/
def build_search_query (parse : String → Option JsonValue) (q : Query) :
    SearchQuery :=
  { q := some q.query
    offset := q.offset.getD 0
    limit := q.limit.getD 10000
    attributes_to_retrieve := q.attributes_to_retrieve.map List.toFinset
    attributes_to_crop := q.attributes_to_crop
    crop_length := q.crop_length.getD 10
    attributes_to_highlight := q.attributes_to_highlight.map List.toFinset
    show_matches_position := q.show_matches_position.getD false
    show_ranking_score := q.show_ranking_score.getD false
    show_ranking_score_details := q.show_ranking_score_details.getD false
    filter := q.filter.bind (fun s => parse s)
    sort := q.sort
    facets := q.facets
    highlight_pre_tag := q.highlight_pre_tag.getD "<em>"
    highlight_post_tag := q.highlight_post_tag.getD "</em>"
    crop_marker := q.crop_marker.getD "..."
    matching_strategy := q.matching_strategy.getD MatchingStrategy.last
    attributes_to_search_on := q.attributes_to_search_on }

/-- `fancy_search` (v1.rs lines 183-239): build the search request,
delegate to the external ranked-search pipeline (`perform`, yielding
hits as raw-document/formatted pairs), and merge each hit into one
object with a "document" and a "formatted" field. -/
def fancy_search (parse : String → Option JsonValue)
    (perform : SearchQuery → Except String (List (Document × Document)))
    (q : Query) : Except String (List Document) :=
  match perform (build_search_query parse q) with
  | Except.error e => Except.error e
  | Except.ok hits =>
      Except.ok (hits.map (fun hit =>
        [("document", JsonValue.obj hit.1), ("formatted", JsonValue.obj hit.2)]))

/-! # Theorems -/

/-! ## Storage environment negotiation -/

/-- Rounding down to the page boundary is a scaled integer division. -/
theorem map_size_eq (maxSize fNum fDen page n : ℕ) :
    map_size maxSize fNum fDen page n =
      page * (curr_max_map_size maxSize fNum fDen n / page) := by
  have h := Nat.div_add_mod (curr_max_map_size maxSize fNum fDen n) page
  unfold map_size
  omega

/-- With a backoff factor at most one, the scaled maximum is
non-increasing in the attempt count. -/
theorem curr_max_antitone (maxSize fNum fDen : ℕ) (hfd : 0 < fDen)
    (hf : fNum ≤ fDen) (n : ℕ) :
    curr_max_map_size maxSize fNum fDen (n + 1) ≤
      curr_max_map_size maxSize fNum fDen n := by
  unfold curr_max_map_size
  calc maxSize * fNum ^ (n + 1) / fDen ^ (n + 1)
      = maxSize * fNum ^ n * fNum / (fDen ^ n * fDen) := by ring_nf
    _ ≤ maxSize * fNum ^ n * fDen / (fDen ^ n * fDen) :=
        Nat.div_le_div_right (Nat.mul_le_mul_left _ hf)
    _ = maxSize * fNum ^ n / fDen ^ n := Nat.mul_div_mul_right _ _ hfd

/-- C1 (amended): in the probing loop of `create_index`, every attempt's
requested size is a multiple of the page size — the greatest such
multiple not exceeding the backoff-scaled original maximum — and is at
most, though not necessarily strictly smaller than, the previous
attempt's requested size. -/
theorem create_index_map_size_page_aligned_antitone
    (maxSize fNum fDen page : ℕ) (hpage : 0 < page)
    (hfd : 0 < fDen) (hf : fNum < fDen) (n : ℕ) :
    page ∣ map_size maxSize fNum fDen page n ∧
    map_size maxSize fNum fDen page n ≤ curr_max_map_size maxSize fNum fDen n ∧
    (∀ m, page ∣ m → m ≤ curr_max_map_size maxSize fNum fDen n →
      m ≤ map_size maxSize fNum fDen page n) ∧
    map_size maxSize fNum fDen page (n + 1) ≤ map_size maxSize fNum fDen page n := by
  refine ⟨⟨_, map_size_eq maxSize fNum fDen page n⟩, Nat.sub_le _ _, ?_, ?_⟩
  · rintro m ⟨k, rfl⟩ hle
    rw [map_size_eq]
    have hk : k ≤ curr_max_map_size maxSize fNum fDen n / page :=
      (Nat.le_div_iff_mul_le hpage).2 (by rw [Nat.mul_comm]; exact hle)
    exact Nat.mul_le_mul_left _ hk
  · rw [map_size_eq, map_size_eq]
    exact Nat.mul_le_mul_left _
      (Nat.div_le_div_right (curr_max_antitone maxSize fNum fDen hfd (le_of_lt hf) n))

/-- Witness for C1 (amended) at the concrete parameters
maxSize = 100000, factor = 1/2, page = 4096, attempt 0. -/
theorem create_index_map_size_page_aligned_antitone_witness :
    (4096 : ℕ) ∣ map_size 100000 1 2 4096 0 ∧
    map_size 100000 1 2 4096 0 ≤ curr_max_map_size 100000 1 2 0 ∧
    (98304 : ℕ) ≤ map_size 100000 1 2 4096 0 ∧
    map_size 100000 1 2 4096 1 ≤ map_size 100000 1 2 4096 0 := by
  have h := create_index_map_size_page_aligned_antitone 100000 1 2 4096
    (by decide) (by decide) (by decide) 0
  exact ⟨h.1, h.2.1, h.2.2.1 98304 ⟨24, by decide⟩ (by decide), h.2.2.2⟩

/-- C1 counterexample: with the spec-consistent parameters
maxSize = 100000, factor = 999/1000 (< 1), page = 16384, the sizes
requested on attempts 0 and 1 are equal, so consecutive attempts are
not strictly decreasing. -/
theorem create_index_map_size_strict_decrease_fails :
    (999 : ℕ) < 1000 ∧ (0 : ℕ) < 16384 ∧
    map_size 100000 999 1000 16384 1 = map_size 100000 999 1000 16384 0 ∧
    ¬ (map_size 100000 999 1000 16384 1 < map_size 100000 999 1000 16384 0) := by
  decide

/-- If every attempt up to and including `tries` fails, the probe started
at any attempt `r ≤ tries` surfaces the error of attempt `tries`. -/
theorem probe_map_size_all_fail {ε : Type} (openResult : ℕ → Except ε Unit)
    (errs : ℕ → ε) (tries r : ℕ) (hr : r ≤ tries)
    (hfail : ∀ i, i ≤ tries → openResult i = Except.error (errs i)) :
    probe_map_size openResult tries r = Except.error (errs tries) := by
  rw [probe_map_size, hfail r hr]
  dsimp only
  by_cases h : r < tries
  · rw [dif_pos h]
    exact probe_map_size_all_fail openResult errs tries (r + 1) h hfail
  · rw [dif_neg h]
    have : r = tries := le_antisymm hr (le_of_not_lt h)
    rw [this]
termination_by tries + 1 - r
decreasing_by omega

/-- The probe only consults the open oracle on attempts up to `tries`:
two oracles that agree there produce the same outcome. -/
theorem probe_map_size_congr {ε : Type} (o₁ o₂ : ℕ → Except ε Unit)
    (tries r : ℕ) (hr : r ≤ tries)
    (hagree : ∀ i, i ≤ tries → o₁ i = o₂ i) :
    probe_map_size o₁ tries r = probe_map_size o₂ tries r := by
  conv_lhs => rw [probe_map_size]
  conv_rhs => rw [probe_map_size]
  rw [← hagree r hr]
  cases ho : o₁ r with
  | ok _ => rfl
  | error e =>
      dsimp only
      by_cases h : r < tries
      · rw [dif_pos h, dif_pos h]
        exact probe_map_size_congr o₁ o₂ tries (r + 1) h hagree
      · rw [dif_neg h, dif_neg h]
termination_by tries + 1 - r
decreasing_by omega

/-- C4: the probing loop of `create_index` makes at most `tries + 1`
open attempts (its outcome depends only on the oracle at attempts
`0..tries`), and when every attempt fails it surfaces the last
underlying open error; the loop is a total function, so it terminates
for every input. -/
theorem create_index_exhausted_retries_surface_last_error {ε : Type}
    (openResult otherOracle : ℕ → Except ε Unit) (errs : ℕ → ε) (tries : ℕ)
    (hfail : ∀ i, i ≤ tries → openResult i = Except.error (errs i))
    (hagree : ∀ i, i ≤ tries → openResult i = otherOracle i) :
    probe_map_size openResult tries 0 = Except.error (errs tries) ∧
    probe_map_size openResult tries 0 = probe_map_size otherOracle tries 0 :=
  ⟨probe_map_size_all_fail openResult errs tries 0 (Nat.zero_le _) hfail,
   probe_map_size_congr openResult otherOracle tries 0 (Nat.zero_le _) hagree⟩

/-- Witness for C4: three attempts (`tries = 2`) that all fail with
distinguishable errors 0, 1, 2 surface the last error 2, and the
outcome ignores the oracle beyond attempt 2. -/
theorem create_index_exhausted_retries_surface_last_error_witness :
    probe_map_size (fun i => (Except.error i : Except ℕ Unit)) 2 0 =
      Except.error 2 ∧
    probe_map_size (fun i => (Except.error i : Except ℕ Unit)) 2 0 =
      probe_map_size
        (fun i => if i < 3 then (Except.error i : Except ℕ Unit)
          else Except.ok ()) 2 0 :=
  create_index_exhausted_retries_surface_last_error
    (fun i => Except.error i)
    (fun i => if i < 3 then Except.error i else Except.ok ())
    (fun i => i) 2
    (fun _ _ => rfl)
    (fun i hi => by
      show (Except.error i : Except ℕ Unit) =
        if i < 3 then Except.error i else Except.ok ()
      rw [if_pos (by omega : i < 3)])

/-! ## The document batch pipeline -/

/-- C3: `set_documents` clears and re-adds inside one write transaction
with exactly one commit: on success the committed state is exactly the
new batch, on any error before (or at) the commit the old state is
fully preserved with zero commits, and a concurrent reader observing
the committed state after any internal step sees either the old state
or the new state, never the intermediate empty one. -/
theorem set_documents_atomic (idx docs : List Document) (o : BatchOracle) :
    ((set_documents idx docs o).result = Except.ok () →
      (set_documents idx docs o).committed = docs ∧
      (set_documents idx docs o).commits = 1) ∧
    (∀ e, (set_documents idx docs o).result = Except.error e →
      (set_documents idx docs o).committed = idx ∧
      (set_documents idx docs o).commits = 0) ∧
    (∀ s ∈ (set_documents idx docs o).observed, s = idx ∨ s = docs) := by
  unfold set_documents
  cases o.beginErr with
  | some e => simp
  | none =>
  cases o.clearErr with
  | some e => simp
  | none =>
  cases happ : append_documents docs o.appendErr with
  | some e => simp
  | none =>
  cases o.builderErr with
  | some e => simp
  | none =>
  cases o.indexingErr with
  | some e => simp
  | none =>
  cases o.executeErr with
  | some e => simp
  | none =>
  cases o.commitErr with
  | some e => simp
  | none => simp

/-- Witness for C3: replacing a one-document index by a different
one-document batch succeeds atomically on the happy-path oracle, and a
commit failure on the same input preserves the old state. -/
theorem set_documents_atomic_witness :
    (set_documents [[("id", JsonValue.str "1")]] [[("id", JsonValue.str "2")]]
        ⟨none, none, fun _ => none, none, none, none, none⟩).committed =
      [[("id", JsonValue.str "2")]] ∧
    (set_documents [[("id", JsonValue.str "1")]] [[("id", JsonValue.str "2")]]
        ⟨none, none, fun _ => none, none, none, none, none⟩).commits = 1 ∧
    (set_documents [[("id", JsonValue.str "1")]] [[("id", JsonValue.str "2")]]
        ⟨none, none, fun _ => none, none, none, none, some "boom"⟩).committed =
      [[("id", JsonValue.str "1")]] ∧
    (set_documents [[("id", JsonValue.str "1")]] [[("id", JsonValue.str "2")]]
        ⟨none, none, fun _ => none, none, none, none, some "boom"⟩).commits = 0 := by
  refine ⟨?_, ?_, ?_, ?_⟩
  · exact ((set_documents_atomic [[("id", JsonValue.str "1")]]
      [[("id", JsonValue.str "2")]]
      ⟨none, none, fun _ => none, none, none, none, none⟩).1 rfl).1
  · exact ((set_documents_atomic [[("id", JsonValue.str "1")]]
      [[("id", JsonValue.str "2")]]
      ⟨none, none, fun _ => none, none, none, none, none⟩).1 rfl).2
  · exact ((set_documents_atomic [[("id", JsonValue.str "1")]]
      [[("id", JsonValue.str "2")]]
      ⟨none, none, fun _ => none, none, none, none, some "boom"⟩).2.1
        "boom" rfl).1
  · exact ((set_documents_atomic [[("id", JsonValue.str "1")]]
      [[("id", JsonValue.str "2")]]
      ⟨none, none, fun _ => none, none, none, none, some "boom"⟩).2.1
        "boom" rfl).2

/-! ## The document reader -/

/-- C8: a lookup whose external identifier is absent from the
identifier map is a successful not-found outcome, while an identifier
map hit whose record is absent from the document store is the
"Missing document" internal-invariant error, a distinct outcome. -/
theorem get_document_not_found_vs_invariant (ds : DocStore) (id : String) :
    (ds.externalIds id = none → get_document ds id = Except.ok none) ∧
    (∀ iid, ds.externalIds id = some iid → ds.docs iid = none →
      get_document ds id = Except.error "Missing document") := by
  constructor
  · intro h
    simp [get_document, h]
  · intro iid h hd
    simp [get_document, h, milli_documents, hd]

/-- Witness for C8: with an identifier map sending "dangling" to the
internal id 7 and an empty document store, "absent" is a successful
not-found and "dangling" is the internal-invariant error. -/
theorem get_document_not_found_vs_invariant_witness :
    get_document
        ⟨fun s => if s = "dangling" then some 7 else none, fun _ => none⟩
        "absent" = Except.ok none ∧
    get_document
        ⟨fun s => if s = "dangling" then some 7 else none, fun _ => none⟩
        "dangling" = Except.error "Missing document" :=
  ⟨(get_document_not_found_vs_invariant _ "absent").1 (by decide),
   (get_document_not_found_vs_invariant _ "dangling").2 7 (by decide) rfl⟩

/-! ## Dump / restore -/

/-- C9: once `create_dump` (likewise `import_dump`) has created its
environment, the close-and-wait step is the last event before the
function returns on every path — exactly one close, at the end of the
event list — and the returned value is the composition of the read
(or apply) outcomes, so any error is reported only after the close
completes. -/
theorem dump_restore_close_wait_before_return
    (settingsRes : Except String MimirIndexSettings)
    (docsRes : Except String (List Document))
    (applySettingsRes applyDocsRes : Except String Unit) :
    ((create_dump (Except.ok ()) settingsRes docsRes).2.getLast? =
      some DumpEvent.closeWait) ∧
    ((create_dump (Except.ok ()) settingsRes docsRes).2.count
      DumpEvent.closeWait = 1) ∧
    ((create_dump (Except.ok ()) settingsRes docsRes).1 =
      settingsRes.bind (fun s => docsRes.map (fun d => (s, d)))) ∧
    ((import_dump (Except.ok ()) applySettingsRes applyDocsRes).2.getLast? =
      some DumpEvent.closeWait) ∧
    ((import_dump (Except.ok ()) applySettingsRes applyDocsRes).2.count
      DumpEvent.closeWait = 1) ∧
    ((import_dump (Except.ok ()) applySettingsRes applyDocsRes).1 =
      applySettingsRes.bind (fun _ => applyDocsRes)) := by
  cases settingsRes <;> cases docsRes <;>
    cases applySettingsRes <;> cases applyDocsRes <;>
      exact ⟨rfl, rfl, rfl, rfl, rfl, rfl⟩

/-! ## Fancy search -/

/-- C10: a fancy-search query whose filter string fails to parse as
JSON runs with no filter at all — the built request's filter is `none`
and the whole search behaves exactly as if no filter had been supplied —
rather than reporting an error to the caller. -/
theorem fancy_search_unparsable_filter_dropped
    (parse : String → Option JsonValue)
    (perform : SearchQuery → Except String (List (Document × Document)))
    (q : Query) (s : String) (hq : q.filter = some s)
    (hbad : parse s = none) :
    (build_search_query parse q).filter = none ∧
    fancy_search parse perform q =
      fancy_search parse perform { q with filter := none } := by
  have hfilter : build_search_query parse q =
      build_search_query parse { q with filter := none } := by
    simp [build_search_query, hq, hbad]
  exact ⟨by simp [build_search_query, hq, hbad],
    by rw [fancy_search, fancy_search, hfilter]⟩

/-- Witness for C10: the filter string "not-json" is rejected by a
parser that rejects everything, and the search result equals the
filterless search's result. -/
theorem fancy_search_unparsable_filter_dropped_witness :
    (build_search_query (fun _ => none)
        ⟨"hello", none, none, none, none, none, none, none, none, none,
          some "not-json", none, none, none, none, none, none, none⟩).filter =
      none ∧
    fancy_search (fun _ => none) (fun _ => Except.ok [])
        ⟨"hello", none, none, none, none, none, none, none, none, none,
          some "not-json", none, none, none, none, none, none, none⟩ =
      fancy_search (fun _ => none) (fun _ => Except.ok [])
        { (⟨"hello", none, none, none, none, none, none, none, none, none,
            some "not-json", none, none, none, none, none, none, none⟩ :
            Query) with filter := none } :=
  fancy_search_unparsable_filter_dropped (fun _ => none)
    (fun _ => Except.ok []) _ "not-json" rfl rfl

/-! ## Settings manager -/

/-- A canonical rule name parses to a static criterion whose printed
name is the original string, and that name is nonempty. -/
theorem canonical_parse_print (r : String) (hr : r ∈ canonical_rule_names) :
    ∃ c, criterion_from_str r = some c ∧ criterion_rule_name c = r ∧
      (r != "") = true := by
  simp only [canonical_rule_names, List.mem_cons, List.not_mem_nil,
    or_false] at hr
  rcases hr with rfl | rfl | rfl | rfl | rfl | rfl
  · exact ⟨Criterion.words, rfl, rfl, rfl⟩
  · exact ⟨Criterion.typo, rfl, rfl, rfl⟩
  · exact ⟨Criterion.proximity, rfl, rfl, rfl⟩
  · exact ⟨Criterion.attribute, rfl, rfl, rfl⟩
  · exact ⟨Criterion.sort, rfl, rfl, rfl⟩
  · exact ⟨Criterion.exactness, rfl, rfl, rfl⟩

/-- Parsing a list of canonical rule names succeeds, and mapping the
parsed criteria back to names (dropping empties) recovers the list. -/
theorem parse_criteria_canonical (rs : List String)
    (h : ∀ r ∈ rs, r ∈ canonical_rule_names) :
    ∃ cs, parse_criteria rs = Except.ok cs ∧
      (cs.map criterion_rule_name).filter (fun s => s != "") = rs := by
  induction rs with
  | nil => exact ⟨[], rfl, rfl⟩
  | cons r rs ih =>
      obtain ⟨c, hc, hname, hne⟩ :=
        canonical_parse_print r (h r (List.mem_cons_self r rs))
      obtain ⟨cs, hcs, hmap⟩ := ih (fun x hx => h x (List.mem_cons_of_mem r hx))
      refine ⟨c :: cs, ?_, ?_⟩
      · simp [parse_criteria, hc, hcs]
      · simp [List.map_cons, List.filter_cons, hname, hne, hmap]

/-- C5: for every prior engine state and every settings object whose
ranking rules use the canonical vocabulary, `set_settings` commits once
and a subsequent `get_settings` reads back exactly the supplied object —
in particular a facet supplied as absent (primary key, searchable
fields) reads back as the engine default, independent of the value held
before the call. -/
theorem set_settings_get_settings_roundtrip (st : EngineSettings)
    (s : MimirIndexSettings)
    (hrules : ∀ r ∈ s.ranking_rules, r ∈ canonical_rule_names) :
    ∃ st', set_settings st s = (Except.ok st', 1) ∧ get_settings st' = s := by
  obtain ⟨pk, sf, ff, sof, rr, sw, syn, te, m1, m2, dw, df⟩ := s
  obtain ⟨cs, hcs, hmap⟩ := parse_criteria_canonical rr hrules
  cases pk <;> cases sf <;>
    · simp only [set_settings, hcs]
      exact ⟨_, rfl, by simp [get_settings, hmap]⟩

/-- Witness for C5: a concrete prior state holding a primary key and
stop words, overwritten by a settings object that leaves the primary
key and searchable fields absent. -/
theorem set_settings_get_settings_roundtrip_witness :
    ∃ st', set_settings
        ⟨some "old_pk", some ["old_field"], {"old_f"}, ∅,
          [Criterion.exactness], {"the"}, [], false, 4, 8, ∅, ∅⟩
        ⟨none, none, {"year"}, {"year"}, ["words", "typo"], ∅, [],
          true, 5, 9, ∅, ∅⟩ =
        (Except.ok st', 1) ∧
      get_settings st' =
        ⟨none, none, {"year"}, {"year"}, ["words", "typo"], ∅, [],
          true, 5, 9, ∅, ∅⟩ :=
  set_settings_get_settings_roundtrip _ _ (by decide)

/-- If some supplied rule name fails to parse, the whole collect fails. -/
theorem parse_criteria_fail {rs : List String} {r : String}
    (hr : r ∈ rs) (hbad : criterion_from_str r = none) :
    ∃ e, parse_criteria rs = Except.error e := by
  induction rs with
  | nil => cases hr
  | cons a as ih =>
      rcases List.mem_cons.1 hr with rfl | h
      · exact ⟨SettingsError.invalidRankingRuleName r,
          by simp [parse_criteria, hbad]⟩
      · cases ha : criterion_from_str a with
        | none => exact ⟨SettingsError.invalidRankingRuleName a,
            by simp [parse_criteria, ha]⟩
        | some c =>
            obtain ⟨e, he⟩ := ih h
            exact ⟨e, by simp [parse_criteria, ha, he]⟩

/-- C6: a settings object whose ranking-rules list contains a name the
engine parser rejects makes `set_settings` return an error with zero
commits performed, so the committed settings state is unchanged. -/
theorem set_settings_unknown_rule_rejected (st : EngineSettings)
    (s : MimirIndexSettings) (r : String) (hr : r ∈ s.ranking_rules)
    (hbad : criterion_from_str r = none) :
    ∃ e, set_settings st s = (Except.error e, 0) := by
  obtain ⟨e, he⟩ := parse_criteria_fail hr hbad
  exact ⟨e, by simp [set_settings, he]⟩

/-- Witness for C6: the rule name "banana" is outside the vocabulary
and is rejected with no commit. -/
theorem set_settings_unknown_rule_rejected_witness :
    ∃ e, set_settings
        ⟨some "old_pk", none, ∅, ∅, [Criterion.words], ∅, [],
          true, 5, 9, ∅, ∅⟩
        ⟨none, none, ∅, ∅, ["words", "banana"], ∅, [],
          true, 5, 9, ∅, ∅⟩ =
        (Except.error e, 0) :=
  set_settings_unknown_rule_rejected _ _ "banana" (by decide) (by decide)

/-- C7: for every engine state, the ranking-rules facet returned by
`get_settings` is the criteria list translated to canonical names in
order, with the per-field asc/desc criteria excluded. -/
theorem get_settings_ranking_rules_canonical (st : EngineSettings) :
    (get_settings st).ranking_rules =
      st.criteria.filterMap (fun c =>
        match c with
        | Criterion.words => some "words"
        | Criterion.typo => some "typo"
        | Criterion.proximity => some "proximity"
        | Criterion.attribute => some "attribute"
        | Criterion.sort => some "sort"
        | Criterion.exactness => some "exactness"
        | Criterion.asc _ => none
        | Criterion.desc _ => none) := by
  simp only [get_settings]
  generalize st.criteria = l
  induction l with
  | nil => rfl
  | cons c cs ih =>
      cases c <;>
        simp [criterion_rule_name, List.filter_cons, List.filterMap_cons, ih]

/-! ## The filter expression compiler -/

mutual

/-- The compiled condition tree reads back to the original filter. -/
theorem conditionToFilter_filterToCondition :
    ∀ f : Filter, conditionToFilter (filterToCondition f) = f
  | Filter.Or fs => by
      simp [filterToCondition, conditionToFilter,
        conditionsToFilters_filtersToConditions fs]
  | Filter.And fs => by
      simp [filterToCondition, conditionToFilter,
        conditionsToFilters_filtersToConditions fs]
  | Filter.Not f => by
      simp [filterToCondition, conditionToFilter,
        conditionToFilter_filterToCondition f]
  | Filter.InValues field values => rfl
  | Filter.GreaterThan f v => rfl
  | Filter.GreaterThanOrEqual f v => rfl
  | Filter.Equal f v => rfl
  | Filter.NotEqual f v => rfl
  | Filter.LessThan f v => rfl
  | Filter.LessThanOrEqual f v => rfl
  | Filter.Between f lo hi => rfl
  | Filter.Exists f => rfl
  | Filter.IsNull f => rfl
  | Filter.IsEmpty f => rfl

/-- Element-wise version of `conditionToFilter_filterToCondition`. -/
theorem conditionsToFilters_filtersToConditions :
    ∀ fs : List Filter, conditionsToFilters (filtersToConditions fs) = fs
  | [] => rfl
  | f :: fs => by
      simp [filtersToConditions, conditionsToFilters,
        conditionToFilter_filterToCondition f,
        conditionsToFilters_filtersToConditions fs]

end

/-- C2: the filter compiler is a pure total function that is
structure-preserving over the whole Filter grammar: Or/And map to
disjunction/conjunction over the compiled sub-filters with order and
arity preserved, Not maps to negation, and every leaf predicate maps to
exactly one field-scoped condition node carrying the same field name
and literal operand strings, with no normalization, simplification or
fallback branch — witnessed by the structural read-back being a left
inverse of the compiler on every filter tree. -/
theorem filter_compiler_structure_preserving (f : Filter) :
    conditionToFilter (filterToCondition f) = f :=
  conditionToFilter_filterToCondition f

end Mimir
